import Mathlib

/-!
Verification of the DFA engine from the repository's
`examples/gallery/computer_science/finite_state_machine.ipynb`.

The source is a small Python class:

```
class DeterministicFiniteAutomaton:
    def __init__(self, states, alphabet, transitions, start_state, accepting_states):
        self.states = states
        self.alphabet = alphabet
        self.transitions = transitions
        self.start_state = start_state
        self.accepting_states = accepting_states

    def accepts(self, string):
        current_state = self.start_state
        for symbol in string:
            if symbol not in self.alphabet:
                raise ValueError('String contains invalid symbol: '.format(symbol))
            current_state = self.transitions[current_state][symbol]
        if current_state in self.accepting_states:
            return True
        return False
```

Embedding choices, each mirroring the Python semantics:
* States and symbols are Python strings (iterating a Python `str` yields
  one-character strings), so both are modelled as `String`.
* Python sets (`states`, `alphabet`, `accepting_states`) are modelled as
  `List String` with list membership for the `in` operator.
* The dict-of-dicts `transitions` is modelled as an association list of
  association lists; `d[k]` is `List.lookup` that raises `KeyError k` on a
  missing key.
* `raise` is modelled with `Except PyErr`; `PyErr.valueError` carries the
  message string and `PyErr.keyError` the missing key, as in Python.
* `'…'.format(symbol)` is modelled by `pyFormat1`, which substitutes one
  positional argument for the first `\x7b\x7d` placeholder of the template
  (and, like Python, returns the template unchanged when the template has
  no placeholder).
* The `for` loop is the function `run`, which threads the pair
  (self, current_state); the loop body never assigns to `self`, so the
  returned object component is passed through untouched, exactly as in the
  source.
-/

/-- The two kinds of Python exceptions the `accepts` method can raise:
`ValueError` with a message (the spec's `InvalidSymbolError`) and
`KeyError` with the missing dict key (the spec's `UndefinedTransitionError`). -/
inductive PyErr where
  | valueError (msg : String)
  | keyError (key : String)
deriving DecidableEq, Repr

/-- Substitute `arg` for the first occurrence of the two-character
placeholder `\x7b\x7d` in a character list; a list without the placeholder
is returned unchanged. -/
def substPlaceholder (arg : List Char) : List Char → List Char
  | [] => []
  | '\x7b' :: '\x7d' :: rest => arg ++ rest
  | c :: rest => c :: substPlaceholder arg rest

/-- Python `str.format` with a single positional argument: the first
occurrence of the placeholder `\x7b\x7d` in the template is replaced by the
argument; a template without a placeholder is returned unchanged (the
argument is ignored), which is exactly Python's behaviour. -/
def pyFormat1 (template arg : String) : String :=
  ⟨substPlaceholder arg.data template.data⟩

/-- The five attributes stored by `DeterministicFiniteAutomaton.__init__`,
in source order.  Python sets become lists, the dict of dicts becomes an
association list of association lists. -/
structure DeterministicFiniteAutomaton where
  states : List String
  alphabet : List String
  transitions : List (String × List (String × String))
  start_state : String
  accepting_states : List String
deriving DecidableEq, Repr

namespace DeterministicFiniteAutomaton

/-- The two-level dict lookup `transitions[q][a]` as a partial lookup,
used only to phrase hypotheses about missing table entries. -/
def lookup2 (t : List (String × List (String × String))) (q a : String) :
    Option String :=
  match t.lookup q with
  | none => none
  | some row => row.lookup a

/-- The `for symbol in string:` loop of `accepts`.  The pair threads the
method receiver `self` together with the local variable `current_state`;
each iteration first checks alphabet membership (raising `ValueError` with
the message built by `pyFormat1`, as in the source), then performs the
two dict subscripts `self.transitions[current_state][symbol]`, each of
which raises `KeyError` with its missing key. -/
def run (self : DeterministicFiniteAutomaton) :
    String → List String → DeterministicFiniteAutomaton × Except PyErr String
  | current, [] => (self, .ok current)
  | current, symbol :: rest =>
    if symbol ∉ self.alphabet then
      (self, .error (.valueError (pyFormat1 "String contains invalid symbol: " symbol)))
    else
      match self.transitions.lookup current with
      | none => (self, .error (.keyError current))
      | some row =>
        match row.lookup symbol with
        | none => (self, .error (.keyError symbol))
        | some next => self.run next rest

/-- `accepts`, on the sequence of symbols of the input: initialise
`current_state` to `self.start_state`, run the loop, then return
`current_state in self.accepting_states` (the source's
`if …: return True / return False`).  A raised exception propagates. -/
def accepts (self : DeterministicFiniteAutomaton) (string : List String) :
    Except PyErr Bool :=
  match (self.run self.start_state string).2 with
  | .error e => .error e
  | .ok current => .ok (if current ∈ self.accepting_states then true else false)

/-- `accepts` on a Python string argument: iterating a Python `str` yields
its characters as one-character strings. -/
def acceptsString (self : DeterministicFiniteAutomaton) (s : String) :
    Except PyErr Bool :=
  self.accepts (s.toList.map Char.toString)

/-- Number of loop iterations `accepts` performs on the given input from
the given current state: one per consumed symbol, where an iteration that
raises still counts as one iteration. -/
def runCount (self : DeterministicFiniteAutomaton) :
    String → List String → Nat
  | _, [] => 0
  | current, symbol :: rest =>
    if symbol ∉ self.alphabet then 1
    else
      match self.transitions.lookup current with
      | none => 1
      | some row =>
        match row.lookup symbol with
        | none => 1
        | some next => 1 + self.runCount next rest

/-- The transition table has an entry for every (state, symbol) pair of
`states × alphabet` (the spec's totality invariant on `δ`). -/
def totalTable (d : DeterministicFiniteAutomaton) : Prop :=
  ∀ q ∈ d.states, ∀ a ∈ d.alphabet, (lookup2 d.transitions q a).isSome

instance (d : DeterministicFiniteAutomaton) : Decidable d.totalTable := by
  unfold totalTable; infer_instance

/-- The spec's data-model reading of a DFA: the start state lies in
`states` and the table is total over `states × alphabet` with all targets
back in `states` (`δ : Q × Σ → Q`). -/
def wellFormed (d : DeterministicFiniteAutomaton) : Prop :=
  d.start_state ∈ d.states ∧
    ∀ q ∈ d.states, ∀ a ∈ d.alphabet,
      ∃ q' ∈ d.states, lookup2 d.transitions q a = some q'

instance (d : DeterministicFiniteAutomaton) : Decidable d.wellFormed := by
  unfold wellFormed; infer_instance

end DeterministicFiniteAutomaton

open DeterministicFiniteAutomaton in
/-- The automaton `m1` of the notebook: binary strings ending in two
consecutive ones. -/
def m1 : DeterministicFiniteAutomaton :=
  { states := ["q0", "q1", "q2", "q3"]
    alphabet := ["0", "1"]
    transitions :=
      [("q0", [("0", "q0"), ("1", "q1")]),
       ("q1", [("0", "q0"), ("1", "q2")]),
       ("q2", [("0", "q0"), ("1", "q3")]),
       ("q3", [("0", "q0"), ("1", "q3")])]
    start_state := "q0"
    accepting_states := ["q3"] }

/-- An automaton with a partially specified transition table: state `q0`
has no entry for symbol `"1"` although `"1"` is in the alphabet, and state
`q1` has no row at all. -/
def mGap : DeterministicFiniteAutomaton :=
  { states := ["q0", "q1"]
    alphabet := ["0", "1"]
    transitions := [("q0", [("0", "q1")])]
    start_state := "q0"
    accepting_states := ["q1"] }

/-- The notebook's automaton with an unrelated `states` component and all
other components unchanged, used to observe that `accepts` never reads
`states`. -/
def mNoStates : DeterministicFiniteAutomaton :=
  { m1 with states := [] }

namespace DeterministicFiniteAutomaton

/-- The loop never assigns to `self`: the object component returned by
`run` is the receiver itself, whatever the outcome of the run. -/
theorem run_fst (d : DeterministicFiniteAutomaton) :
    ∀ (s : List String) (c : String), (d.run c s).1 = d := by
  intro s
  induction s with
  | nil => intro c; rfl
  | cons a rest ih =>
    intro c
    simp only [run]
    by_cases ha : a ∉ d.alphabet
    · rw [if_pos ha]
    · rw [if_neg ha]
      rcases h1 : d.transitions.lookup c with _ | row
      · simp only [h1]
      · simp only [h1]
        rcases h2 : row.lookup a with _ | next
        · simp only [h2]
        · simp only [h2]; exact ih next

/-- A run that succeeds on a prefix continues from the reached state on
the remainder of the input. -/
theorem run_append_ok {d : DeterministicFiniteAutomaton} :
    ∀ {xs : List String} {c q : String}, (d.run c xs).2 = .ok q →
      ∀ ys : List String, d.run c (xs ++ ys) = d.run q ys := by
  intro xs
  induction xs with
  | nil =>
    intro c q h ys
    have hc : c = q := by simpa [run] using h
    subst hc; rfl
  | cons a rest ih =>
    intro c q h ys
    simp only [run] at h
    simp only [List.cons_append, run]
    by_cases ha : a ∉ d.alphabet
    · rw [if_pos ha] at h; exact absurd h (by simp)
    · rw [if_neg ha] at h; rw [if_neg ha]
      rcases h1 : d.transitions.lookup c with _ | row
      · simp only [h1] at h; exact absurd h (by simp)
      · simp only [h1] at h; simp only [h1]
        rcases h2 : row.lookup a with _ | next
        · simp only [h2] at h; exact absurd h (by simp)
        · simp only [h2] at h; simp only [h2]
          exact ih h ys

/-- A run that raises on a prefix raises the same exception on any
extension of that prefix: the remaining input is never examined. -/
theorem run_append_error {d : DeterministicFiniteAutomaton} :
    ∀ {xs : List String} {c : String} {e : PyErr}, (d.run c xs).2 = .error e →
      ∀ ys : List String, (d.run c (xs ++ ys)).2 = .error e := by
  intro xs
  induction xs with
  | nil => intro c e h ys; exact absurd h (by simp [run])
  | cons a rest ih =>
    intro c e h ys
    simp only [run] at h
    simp only [List.cons_append, run]
    by_cases ha : a ∉ d.alphabet
    · rw [if_pos ha] at h; rw [if_pos ha]; exact h
    · rw [if_neg ha] at h; rw [if_neg ha]
      rcases h1 : d.transitions.lookup c with _ | row
      · simp only [h1] at h; simp only [h1]; exact h
      · simp only [h1] at h; simp only [h1]
        rcases h2 : row.lookup a with _ | next
        · simp only [h2] at h; simp only [h2]; exact h
        · simp only [h2] at h; simp only [h2]
          exact ih h ys

/-- Under the spec's data-model invariant on the table, a run over
symbols of the alphabet raises no exception. -/
theorem run_ok_of_wf {d : DeterministicFiniteAutomaton}
    (hd : ∀ q ∈ d.states, ∀ a ∈ d.alphabet,
      ∃ q' ∈ d.states, lookup2 d.transitions q a = some q') :
    ∀ (s : List String) (c : String), c ∈ d.states → (∀ a ∈ s, a ∈ d.alphabet) →
      ∃ q, (d.run c s).2 = .ok q := by
  intro s
  induction s with
  | nil => intro c hc _; exact ⟨c, rfl⟩
  | cons a rest ih =>
    intro c hc hall
    have ha : a ∈ d.alphabet := hall a (by simp)
    obtain ⟨q', hq's, hq'⟩ := hd c hc a ha
    unfold lookup2 at hq'
    rcases h1 : d.transitions.lookup c with _ | row
    · simp only [h1] at hq'
      exact absurd hq' (by simp)
    · simp only [h1] at hq'
      obtain ⟨qf, hqf⟩ := ih q' hq's (fun b hb => hall b (by simp [hb]))
      refine ⟨qf, ?_⟩
      simp only [run, if_neg (not_not_intro ha), h1, hq']
      exact hqf

/-- The loop performs at most one iteration per input symbol. -/
theorem runCount_le (d : DeterministicFiniteAutomaton) :
    ∀ (s : List String) (c : String), d.runCount c s ≤ s.length := by
  intro s
  induction s with
  | nil => intro c; exact Nat.le_refl 0
  | cons a rest ih =>
    intro c
    simp only [runCount, List.length_cons]
    by_cases ha : a ∉ d.alphabet
    · rw [if_pos ha]; exact Nat.succ_le_succ (Nat.zero_le _)
    · rw [if_neg ha]
      rcases h1 : d.transitions.lookup c with _ | row
      · simp only [h1]; exact Nat.succ_le_succ (Nat.zero_le _)
      · simp only [h1]
        rcases h2 : row.lookup a with _ | next
        · simp only [h2]; exact Nat.succ_le_succ (Nat.zero_le _)
        · simp only [h2]
          have := ih next
          omega

/-- A run that raises no exception performs exactly one iteration per
input symbol. -/
theorem runCount_eq_of_ok (d : DeterministicFiniteAutomaton) :
    ∀ (s : List String) (c q : String), (d.run c s).2 = .ok q →
      d.runCount c s = s.length := by
  intro s
  induction s with
  | nil => intro c q _; rfl
  | cons a rest ih =>
    intro c q h
    simp only [run] at h
    simp only [runCount, List.length_cons]
    by_cases ha : a ∉ d.alphabet
    · rw [if_pos ha] at h; exact absurd h (by simp)
    · rw [if_neg ha] at h; rw [if_neg ha]
      rcases h1 : d.transitions.lookup c with _ | row
      · simp only [h1] at h; exact absurd h (by simp)
      · simp only [h1] at h; simp only [h1]
        rcases h2 : row.lookup a with _ | next
        · simp only [h2] at h; exact absurd h (by simp)
        · simp only [h2] at h; simp only [h2]
          rw [ih next q h]
          omega

/-- If `accepts` returns a boolean, the underlying run ended in some
state without raising. -/
theorem accepts_ok_run {d : DeterministicFiniteAutomaton} {s : List String}
    {b : Bool} (h : d.accepts s = .ok b) :
    ∃ q, (d.run d.start_state s).2 = .ok q := by
  rcases hr : (d.run d.start_state s).2 with e | q
  · unfold accepts at h
    rw [hr] at h
    simp at h
  · exact ⟨q, rfl⟩

/-- The outcome of a run depends only on the `alphabet` and `transitions`
fields of the receiver. -/
theorem run_snd_congr (d1 d2 : DeterministicFiniteAutomaton)
    (hA : d1.alphabet = d2.alphabet) (hT : d1.transitions = d2.transitions) :
    ∀ (s : List String) (c : String), (d1.run c s).2 = (d2.run c s).2 := by
  intro s
  induction s with
  | nil => intro c; rfl
  | cons a rest ih =>
    intro c
    simp only [run, hA, hT]
    by_cases ha : a ∉ d2.alphabet
    · rw [if_pos ha, if_pos ha]
    · rw [if_neg ha, if_neg ha]
      rcases h1 : d2.transitions.lookup c with _ | row
      · simp only [h1]
      · simp only [h1]
        rcases h2 : row.lookup a with _ | next
        · simp only [h2]
        · simp only [h2]; exact ih next

/-- Claim C1: on the notebook's automaton `m1` (start `q0`, accepting
`q3`, the transition table of the concrete scenario), `accepts` returns
`true` on `"111"` and `"010111"`, and `false` on `"101"`, `"101110"` and
the empty string. -/
theorem m1_concrete_acceptance :
    m1.acceptsString "111" = .ok true ∧
    m1.acceptsString "010111" = .ok true ∧
    m1.acceptsString "101" = .ok false ∧
    m1.acceptsString "101110" = .ok false ∧
    m1.acceptsString "" = .ok false := by
  exact ⟨rfl, rfl, rfl, rfl, rfl⟩

/-- Claim C2: for every automaton whose transition table is total over its
states and alphabet, `accepts` on the empty input sequence returns exactly
the membership of the start state in the accepting states, and the loop
performs zero iterations. -/
theorem accepts_nil_iff_start_accepting (d : DeterministicFiniteAutomaton)
    (ht : d.totalTable) :
    d.accepts [] = .ok (decide (d.start_state ∈ d.accepting_states)) ∧
    d.runCount d.start_state [] = 0 := by
  refine ⟨?_, rfl⟩
  by_cases hp : d.start_state ∈ d.accepting_states <;> simp [accepts, run, hp]

/-- Witness for C2 at the notebook's automaton `m1`. -/
theorem accepts_nil_witness :
    m1.accepts [] = .ok (decide (m1.start_state ∈ m1.accepting_states)) ∧
    m1.runCount m1.start_state [] = 0 :=
  accepts_nil_iff_start_accepting m1 (by decide)

/-- Claim C3 (code bug): on input `"12"` the run does abort with the
invalid-symbol `ValueError` instead of returning a boolean, but the
message built by `'String contains invalid symbol: '.format(symbol)` is
the bare template — the template has no placeholder, so the offending
symbol `'2'` never appears in the error payload, contrary to the spec. -/
theorem invalid_symbol_message_omits_symbol :
    m1.acceptsString "12" =
      .error (.valueError (pyFormat1 "String contains invalid symbol: " "2")) ∧
    pyFormat1 "String contains invalid symbol: " "2" =
      "String contains invalid symbol: " ∧
    ¬ '2' ∈ "String contains invalid symbol: ".data := by
  exact ⟨rfl, rfl, by decide⟩

/-- Claim C4: when a valid prefix reaches a state from which the table has
no entry for the next symbol, even though that symbol is in the alphabet,
`accepts` aborts with a `KeyError` (the undefined-transition error, a
different constructor from the invalid-symbol `ValueError`), never
substituting a default state. -/
theorem undefined_transition_keyerror (d : DeterministicFiniteAutomaton)
    (xs : List String) (q c : String) (ys : List String)
    (hrun : (d.run d.start_state xs).2 = .ok q)
    (hc : c ∈ d.alphabet) (hgap : lookup2 d.transitions q c = none) :
    ∃ k, d.accepts (xs ++ c :: ys) = .error (.keyError k) ∧
      ∀ msg, (PyErr.keyError k : PyErr) ≠ .valueError msg := by
  have hrw := run_append_ok hrun (c :: ys)
  unfold lookup2 at hgap
  rcases h1 : d.transitions.lookup q with _ | row
  · refine ⟨q, ?_, fun msg h => PyErr.noConfusion h⟩
    unfold accepts
    rw [hrw]
    simp [run, if_neg (not_not_intro hc), h1]
  · simp only [h1] at hgap
    refine ⟨c, ?_, fun msg h => PyErr.noConfusion h⟩
    unfold accepts
    rw [hrw]
    simp [run, if_neg (not_not_intro hc), h1, hgap]

/-- Witness for C4: on `mGap`, whose table lacks an entry for
`("q0", "1")`, the one-symbol input `"1"` aborts with a `KeyError`. -/
theorem undefined_transition_witness :
    ∃ k, mGap.accepts ([] ++ "1" :: []) = .error (.keyError k) ∧
      ∀ msg, (PyErr.keyError k : PyErr) ≠ .valueError msg :=
  undefined_transition_keyerror mGap [] "q0" "1" [] rfl (by decide) rfl

/-- Claim C5: the alphabet-membership check precedes the table lookup for
every consumed symbol: a symbol outside the alphabet aborts the run with
the invalid-symbol `ValueError` even when the table also has no entry for
the current (state, symbol) pair, at any position of the input. -/
theorem alphabet_check_precedes_table (d : DeterministicFiniteAutomaton)
    (xs : List String) (q c : String) (ys : List String)
    (hrun : (d.run d.start_state xs).2 = .ok q)
    (hc : c ∉ d.alphabet) (hgap : lookup2 d.transitions q c = none) :
    d.accepts (xs ++ c :: ys) =
      .error (.valueError (pyFormat1 "String contains invalid symbol: " c)) := by
  have hrw := run_append_ok hrun (c :: ys)
  unfold accepts
  rw [hrw]
  simp [run, if_pos hc]

/-- Witness for C5 at `m1` on the input `"12"`: the symbol `"2"` is
outside the alphabet and the `q1` row has no `"2"` entry, and the run
aborts with the `ValueError`. -/
theorem alphabet_check_witness :
    m1.accepts (["1"] ++ "2" :: []) =
      .error (.valueError (pyFormat1 "String contains invalid symbol: " "2")) :=
  alphabet_check_precedes_table m1 ["1"] "q1" "2" [] rfl (by decide) rfl

/-- Claim C6: on a well-formed automaton and an input over the declared
alphabet, `accepts` returns a boolean, and — being a pure function of the
automaton definition and the symbol sequence, with no other state — two
calls with the same arguments return the same boolean. -/
theorem accepts_pure_deterministic (d : DeterministicFiniteAutomaton)
    (s : List String) (hwf : d.wellFormed) (hs : ∀ a ∈ s, a ∈ d.alphabet) :
    ∃ b, d.accepts s = .ok b ∧ d.accepts s = .ok b := by
  obtain ⟨hstart, hd⟩ := hwf
  obtain ⟨q, hq⟩ := run_ok_of_wf hd s d.start_state hstart hs
  refine ⟨if q ∈ d.accepting_states then true else false, ?_, ?_⟩ <;>
    · unfold accepts
      rw [hq]

/-- Witness for C6 at `m1` on the input sequence `["1", "0"]`. -/
theorem accepts_pure_witness :
    ∃ b, m1.accepts ["1", "0"] = .ok b ∧ m1.accepts ["1", "0"] = .ok b :=
  accepts_pure_deterministic m1 ["1", "0"] (by decide) (by decide)

/-- Claim C7: construction stores the five components unchanged (each
field of the constructed value is the corresponding argument), and every
run of `accepts` — initialised at the start state, whatever its outcome —
returns the receiver object untouched: the only threaded state is the
ephemeral current-state variable. -/
theorem construction_and_frame :
    (∀ (Q A : List String) (T : List (String × List (String × String)))
        (q0 : String) (F : List String),
        (DeterministicFiniteAutomaton.mk Q A T q0 F).states = Q ∧
        (DeterministicFiniteAutomaton.mk Q A T q0 F).alphabet = A ∧
        (DeterministicFiniteAutomaton.mk Q A T q0 F).transitions = T ∧
        (DeterministicFiniteAutomaton.mk Q A T q0 F).start_state = q0 ∧
        (DeterministicFiniteAutomaton.mk Q A T q0 F).accepting_states = F) ∧
    ∀ (d : DeterministicFiniteAutomaton) (s : List String),
      (d.run d.start_state s).1 = d :=
  ⟨fun _ _ _ _ _ => ⟨rfl, rfl, rfl, rfl, rfl⟩,
   fun d s => run_fst d s d.start_state⟩

/-- Claim C8: `accepts` terminates on every finite input, and the loop
performs at most one iteration per input symbol — exactly one per symbol
whenever a boolean is returned. -/
theorem accepts_terminates_linear (d : DeterministicFiniteAutomaton)
    (s : List String) :
    d.runCount d.start_state s ≤ s.length ∧
    ∀ b, d.accepts s = .ok b → d.runCount d.start_state s = s.length :=
  ⟨runCount_le d s d.start_state, fun _ hb => by
    obtain ⟨q, hq⟩ := accepts_ok_run hb
    exact runCount_eq_of_ok d s d.start_state q hq⟩

/-- Witness for C8 at `m1` on the input sequence `["1", "1", "1"]`. -/
theorem accepts_terminates_witness :
    m1.runCount m1.start_state ["1", "1", "1"] ≤ 3 ∧
    m1.runCount m1.start_state ["1", "1", "1"] = 3 :=
  ⟨(accepts_terminates_linear m1 ["1", "1", "1"]).1,
   (accepts_terminates_linear m1 ["1", "1", "1"]).2 true rfl⟩

/-- Claim C9: `accepts` never reads the `states` component: two automata
that agree on alphabet, transitions, start state and accepting states but
differ in `states` produce the identical outcome on every input. -/
theorem accepts_ignores_states_field (d1 d2 : DeterministicFiniteAutomaton)
    (hA : d1.alphabet = d2.alphabet) (hT : d1.transitions = d2.transitions)
    (hq : d1.start_state = d2.start_state)
    (hF : d1.accepting_states = d2.accepting_states) (s : List String) :
    d1.accepts s = d2.accepts s := by
  unfold accepts
  rw [hq, hF, run_snd_congr d1 d2 hA hT s d2.start_state]

/-- Witness for C9: `m1` and `mNoStates` differ only in `states` and agree
on the input sequence `["1", "1"]`. -/
theorem accepts_ignores_states_witness :
    m1.accepts ["1", "1"] = mNoStates.accepts ["1", "1"] :=
  accepts_ignores_states_field m1 mNoStates rfl rfl rfl rfl ["1", "1"]

/-- Claim C10: errors are detected in input-consumption order: whatever
exception a run raises on a prefix (undefined-transition `KeyError` or
invalid-symbol `ValueError`), the run on any extension of that prefix
raises that same exception, so a later invalid symbol or table gap is
never examined. -/
theorem error_in_consumption_order (d : DeterministicFiniteAutomaton)
    (xs ys : List String) (e : PyErr) (h : d.accepts xs = .error e) :
    d.accepts (xs ++ ys) = .error e := by
  rcases hr : (d.run d.start_state xs).2 with e' | q
  · unfold accepts at h
    rw [hr] at h
    simp only at h
    cases h
    unfold accepts
    rw [run_append_error hr ys]
  · unfold accepts at h
    rw [hr] at h
    simp at h

/-- Witness for C10: on `mGap`, the undefined transition at position 0
preempts the out-of-alphabet symbol `"2"` at position 1. -/
theorem error_order_witness :
    mGap.accepts (["1"] ++ ["2"]) = .error (.keyError "1") :=
  error_in_consumption_order mGap ["1"] ["2"] (.keyError "1") rfl

end DeterministicFiniteAutomaton
